import Mathlib

/-
Verification of the vehicle-registration normalization / aggregation /
growth-metric pipeline (src/data_loader.py, src/processing.py).

Shallow embedding conventions:
  - pandas float cells are modelled with exact rationals (ℚ); the IEEE special
    values NaN / +inf / -inf that the growth engine can produce are modelled
    symbolically by the PctVal type below.
  - a pandas timestamp is modelled by the Date structure; the null timestamp
    NaT is modelled with Option (none = NaT).
  - a DataFrame with the fixed canonical schema is a List of records;
    a raw CSV frame (variable columns, possibly duplicated labels after
    header normalization) is a list of (label, column of cells).
  - fallible pandas operations are Except String valued.
-/

/-- A calendar date (pandas Timestamp).  Ordering is lexicographic. -/
structure Date where
  year : Int
  month : Nat
  day : Nat
deriving DecidableEq, Repr

/-- Lexicographic comparison on dates, as pandas compares timestamps. -/
def Date.leb (a b : Date) : Bool :=
  decide (a.year < b.year) ||
    (decide (a.year = b.year) &&
      (decide (a.month < b.month) ||
        (decide (a.month = b.month) && decide (a.day ≤ b.day))))

/-- Result of a pandas float computation: a finite value or an IEEE special.
pct_change yields NaN where the trailing offset is missing and for 0/0,
and a signed infinity for x/0 with x nonzero. -/
inductive PctVal where
  | nan
  | posInf
  | negInf
  | val (q : ℚ)
deriving DecidableEq, Repr

/-- Python substring test on character lists (the Python `in` operator). -/
def hasSub (sub : List Char) : List Char → Bool
  | [] => sub.isEmpty
  | c :: rest => sub.isPrefixOf (c :: rest) || hasSub sub rest

/-- Python `sub in s` for strings. -/
def strContains (s sub : String) : Bool := hasSub sub.data s.data

/-- Python str.lower(), character by character (ASCII case mapping; the data
this pipeline sees is ASCII). -/
def pyLower (s : String) : String := String.mk (s.data.map Char.toLower)

/-- src/data_loader.py map_category: free text to the closed category set.
Python does str(x).lower(); the cell-to-string conversion is applied by the
caller, so here the argument is already a string. -/
def map_category (x : String) : String :=
  let s := pyLower x
  if strContains s "two" || strContains s "2w" then "2W"
  else if strContains s "three" || strContains s "3w" || strContains s "auto" then "3W"
  else if strContains s "four" || strContains s "4w" || strContains s "car" || strContains s "jeep" then "4W"
  else "OTHER"

example : map_category "Two Wheeler" = "2W" := by decide
example : map_category "AUTO RICKSHAW" = "3W" := by decide
example : map_category "Jeep" = "4W" := by decide
example : map_category "bus" = "OTHER" := by decide
example : map_category "2W-scooter" = "2W" := by decide

/-- A canonical record as consumed by the Aggregator (src/processing.py).
period is the pd.to_datetime-coerced value: none models NaT (unset or
unparseable).  registrations is an exact rational standing for the float. -/
structure Row where
  period : Option Date
  vehicle_category : String
  manufacturer : String
  registrations : ℚ
deriving DecidableEq, Repr

/-- A row of the aggregated table: one row per
(period bucket, vehicle_category, manufacturer) key. -/
structure AggRow where
  period : Date
  vehicle_category : String
  manufacturer : String
  total : ℚ
deriving DecidableEq, Repr

/-- Grouping / sorting key, ordered as the final
sort_values(["vehicle_category", "manufacturer", "period"]). -/
abbrev AggKey := String × String × Date

/-- Python / numpy string comparison: code-point lexicographic on the
character lists. -/
def listLtb : List Char → List Char → Bool
  | [], [] => false
  | [], _ :: _ => true
  | _ :: _, [] => false
  | a :: as, b :: bs => if a < b then true else if a = b then listLtb as bs else false

/-- Strict string order, as Python compares str values. -/
def strLtb (a b : String) : Bool := listLtb a.data b.data

lemma listLtb_irrefl (l : List Char) : listLtb l l = false := by
  induction l with
  | nil => rfl
  | cons a t ih => simp [listLtb, ih]

lemma listLtb_trichotomy (as bs : List Char) :
    listLtb as bs = true ∨ as = bs ∨ listLtb bs as = true := by
  induction as generalizing bs with
  | nil => cases bs <;> simp [listLtb]
  | cons a as ih =>
    cases bs with
    | nil => simp [listLtb]
    | cons b bs =>
      rcases lt_trichotomy a b with h | h | h
      · left; simp [listLtb, h]
      · subst h
        rcases ih bs with h2 | h2 | h2
        · left; simp [listLtb, h2]
        · right; left; rw [h2]
        · right; right; simp [listLtb, h2]
      · right; right; simp [listLtb, h]

lemma listLtb_trans {as bs cs : List Char} (h1 : listLtb as bs = true)
    (h2 : listLtb bs cs = true) : listLtb as cs = true := by
  induction as generalizing bs cs with
  | nil =>
    cases bs with
    | nil => exact absurd h1 (by simp [listLtb])
    | cons b bs => cases cs with
      | nil => exact absurd h2 (by simp [listLtb])
      | cons c cs => simp [listLtb]
  | cons a as ih =>
    cases bs with
    | nil => exact absurd h1 (by simp [listLtb])
    | cons b bs =>
      cases cs with
      | nil => exact absurd h2 (by simp [listLtb])
      | cons c cs =>
        simp only [listLtb] at h1 h2 ⊢
        by_cases hab : a < b
        · by_cases hbc : b < c
          · simp [hab.trans hbc]
          · by_cases hbc2 : b = c
            · simp [hbc2 ▸ hab]
            · simp [hbc, hbc2] at h2
        · by_cases hab2 : a = b
          · subst hab2
            simp [hab] at h1
            by_cases hbc : a < c
            · simp [hbc]
            · by_cases hbc2 : a = c
              · subst hbc2
                simp [hbc] at h2 ⊢
                exact ih h1 h2
              · simp [hbc, hbc2] at h2
          · simp [hab, hab2] at h1

lemma strLtb_irrefl (s : String) : strLtb s s = false := listLtb_irrefl _

lemma strLtb_trichotomy (a b : String) :
    strLtb a b = true ∨ a = b ∨ strLtb b a = true := by
  rcases listLtb_trichotomy a.data b.data with h | h | h
  · exact Or.inl h
  · exact Or.inr (Or.inl (String.ext h))
  · exact Or.inr (Or.inr h)

lemma strLtb_trans {a b c : String} (h1 : strLtb a b = true) (h2 : strLtb b c = true) :
    strLtb a c = true := listLtb_trans h1 h2

lemma strLtb_not_both {a b : String} (h1 : strLtb a b = true) (h2 : strLtb b a = true) :
    False := by
  have := strLtb_trans h1 h2
  rw [strLtb_irrefl] at this
  exact Bool.false_ne_true this

/-- Lexicographic (category, manufacturer, period) comparison used by the
final sort of aggregate.  String order is code-point lexicographic, as in
both Python and numpy lexsort on object arrays. -/
def keyLe (a b : AggKey) : Bool :=
  strLtb a.1 b.1 ||
    (decide (a.1 = b.1) &&
      (strLtb a.2.1 b.2.1 ||
        (decide (a.2.1 = b.2.1) && Date.leb a.2.2 b.2.2)))

/-- The key order as a relation, for the sorting lemmas. -/
def keyRel (a b : AggKey) : Prop := keyLe a b = true

instance : DecidableRel keyRel := fun a b => inferInstanceAs (Decidable (keyLe a b = true))

lemma dateLeb_total (a b : Date) : Date.leb a b = true ∨ Date.leb b a = true := by
  unfold Date.leb
  simp only [Bool.or_eq_true, Bool.and_eq_true, decide_eq_true_eq]
  omega

lemma dateLeb_trans {a b c : Date} (h1 : Date.leb a b = true) (h2 : Date.leb b c = true) :
    Date.leb a c = true := by
  unfold Date.leb at *
  simp only [Bool.or_eq_true, Bool.and_eq_true, decide_eq_true_eq] at *
  omega

lemma dateLeb_antisymm {a b : Date} (h1 : Date.leb a b = true) (h2 : Date.leb b a = true) :
    a = b := by
  cases a; cases b
  unfold Date.leb at *
  simp only [Bool.or_eq_true, Bool.and_eq_true, decide_eq_true_eq] at *
  simp only [Date.mk.injEq]
  omega

instance : IsTotal AggKey keyRel := by
  constructor
  intro a b
  unfold keyRel keyLe
  simp only [Bool.or_eq_true, Bool.and_eq_true, decide_eq_true_eq]
  rcases strLtb_trichotomy a.1 b.1 with h | h | h
  · exact Or.inl (Or.inl h)
  · rcases strLtb_trichotomy a.2.1 b.2.1 with h2 | h2 | h2
    · exact Or.inl (Or.inr ⟨h, Or.inl h2⟩)
    · rcases dateLeb_total a.2.2 b.2.2 with hd | hd
      · exact Or.inl (Or.inr ⟨h, Or.inr ⟨h2, hd⟩⟩)
      · exact Or.inr (Or.inr ⟨h.symm, Or.inr ⟨h2.symm, hd⟩⟩)
    · exact Or.inr (Or.inr ⟨h.symm, Or.inl h2⟩)
  · exact Or.inr (Or.inl h)

instance : IsTrans AggKey keyRel := by
  constructor
  intro a b c hab hbc
  unfold keyRel keyLe at *
  simp only [Bool.or_eq_true, Bool.and_eq_true, decide_eq_true_eq] at *
  rcases hab with h1 | ⟨h1, h1r⟩
  · rcases hbc with h2 | ⟨h2, _⟩
    · exact Or.inl (strLtb_trans h1 h2)
    · exact Or.inl (h2 ▸ h1)
  · rcases hbc with h2 | ⟨h2, h2r⟩
    · exact Or.inl (h1 ▸ h2)
    · refine Or.inr ⟨h1.trans h2, ?_⟩
      rcases h1r with hm1 | ⟨hm1, hd1⟩
      · rcases h2r with hm2 | ⟨hm2, _⟩
        · exact Or.inl (strLtb_trans hm1 hm2)
        · exact Or.inl (hm2 ▸ hm1)
      · rcases h2r with hm2 | ⟨hm2, hd2⟩
        · exact Or.inl (hm1 ▸ hm2)
        · exact Or.inr ⟨hm1.trans hm2, dateLeb_trans hd1 hd2⟩

instance : IsAntisymm AggKey keyRel := by
  constructor
  intro a b hab hba
  rcases a with ⟨a1, a2, a3⟩
  rcases b with ⟨b1, b2, b3⟩
  unfold keyRel keyLe at *
  simp only [Bool.or_eq_true, Bool.and_eq_true, decide_eq_true_eq] at *
  rcases hab with h1 | ⟨h1, h1r⟩
  · rcases hba with h2 | ⟨h2, _⟩
    · exact absurd (strLtb_trans h1 h2) (by simp [strLtb_irrefl])
    · exact absurd (h2 ▸ h1) (by simp [strLtb_irrefl])
  · rcases hba with h2 | ⟨h2, h2r⟩
    · exact absurd (h1 ▸ h2) (by simp [strLtb_irrefl])
    · subst h1
      rcases h1r with hm1 | ⟨hm1, hd1⟩
      · rcases h2r with hm2 | ⟨hm2, _⟩
        · exact absurd (strLtb_trans hm1 hm2) (by simp [strLtb_irrefl])
        · exact absurd (hm2 ▸ hm1) (by simp [strLtb_irrefl])
      · rcases h2r with hm2 | ⟨hm2, hd2⟩
        · exact absurd (hm1 ▸ hm2) (by simp [strLtb_irrefl])
        · subst hm1
          rw [dateLeb_antisymm hd1 hd2]

/-- period.dt.to_period("M").dt.to_timestamp(): floor to month start. -/
def Date.floorM (d : Date) : Date := ⟨d.year, d.month, 1⟩

/-- period.dt.to_period("Q").dt.to_timestamp(): floor to quarter start. -/
def Date.floorQ (d : Date) : Date := ⟨d.year, 3 * ((d.month - 1) / 3) + 1, 1⟩

/-- period.dt.to_period("Y").dt.to_timestamp(): floor to year start. -/
def Date.floorY (d : Date) : Date := ⟨d.year, 1, 1⟩

/-- The (key, registrations) pair a row contributes to the groupby, or none
when its period is NaT (pandas groupby drops rows with a null group key). -/
def toKeyed (fl : Date → Date) (r : Row) : Option (AggKey × ℚ) :=
  r.period.map (fun p => ((r.vehicle_category, r.manufacturer, fl p), r.registrations))

/-- Rebuild an aggregated row from its key and its summed total. -/
def mkAggRow (k : AggKey) (tot : ℚ) : AggRow := ⟨k.2.2, k.1, k.2.1, tot⟩

/-- groupby(key).agg(total=sum) followed by
sort_values(["vehicle_category", "manufacturer", "period"]): one output row
per distinct key, in lexicographic key order (the keys are distinct, so the
pandas order — groupby-sorted then stably lexsorted — is exactly the sorted
order of the distinct keys). -/
def groupSumSorted (keyed : List (AggKey × ℚ)) : List AggRow :=
  let ks := List.insertionSort keyRel ((keyed.map Prod.fst).dedup)
  ks.map (fun k => mkAggRow k (((keyed.filter (fun p => p.1 = k)).map Prod.snd).sum))

/-- src/processing.py aggregate.  The empty-input short-circuit precedes the
frequency check, exactly as in the source; an unsupported frequency raises
ValueError, modelled by Except.error. -/
def aggregate (df : List Row) (freq : String) : Except String (List AggRow) :=
  if df.isEmpty then .ok []
  else if freq = "M" then .ok (groupSumSorted (df.filterMap (toKeyed Date.floorM)))
  else if freq = "Q" then .ok (groupSumSorted (df.filterMap (toKeyed Date.floorQ)))
  else if freq = "Y" then .ok (groupSumSorted (df.filterMap (toKeyed Date.floorY)))
  else .error "freq must be 'M', 'Q', or 'Y'"


section SumLemmas

variable {α κ : Type} [DecidableEq κ]

lemma sum_filter_add_sum_filter_not (l : List α) (p : α → Bool) (val : α → ℚ) :
    ((l.filter p).map val).sum + ((l.filter (fun x => ! p x)).map val).sum
      = (l.map val).sum := by
  induction l with
  | nil => simp
  | cons a t ih =>
    cases h : p a <;> simp [List.filter_cons, h, ← ih] <;> ring

lemma sum_groups (key : α → κ) (val : α → ℚ) (ks : List κ) (l : List α)
    (hnd : ks.Nodup) (hc : ∀ x ∈ l, key x ∈ ks) :
    (ks.map (fun k => ((l.filter (fun x => key x = k)).map val).sum)).sum
      = (l.map val).sum := by
  induction ks generalizing l with
  | nil =>
    have hl : l = [] := by
      cases l with
      | nil => rfl
      | cons a t => exact absurd (hc a (List.mem_cons_self a t)) (List.not_mem_nil _)
    simp [hl]
  | cons k ks ih =>
    have hk : k ∉ ks := (List.nodup_cons.mp hnd).1
    have hnd' : ks.Nodup := (List.nodup_cons.mp hnd).2
    set l' := l.filter (fun x => ! (key x = k : Bool)) with hl'
    have hcongr : ∀ k' ∈ ks,
        (l.filter (fun x => key x = k')) = (l'.filter (fun x => key x = k')) := by
      intro k' hk'
      have hne : k' ≠ k := fun h => hk (h ▸ hk')
      rw [hl', List.filter_filter]
      apply List.filter_congr
      intro x _
      by_cases hx : key x = k'
      · simp [hx, hne]
      · simp [hx]
    have hcover' : ∀ x ∈ l', key x ∈ ks := by
      intro x hx
      have hxl : x ∈ l := List.mem_of_mem_filter hx
      have hxk : ¬ (key x = k) := by
        have := List.of_mem_filter hx
        simpa using this
      rcases List.mem_cons.mp (hc x hxl) with h | h
      · exact absurd h hxk
      · exact h
    have hmap : (ks.map (fun k' => ((l.filter (fun x => key x = k')).map val).sum))
        = (ks.map (fun k' => ((l'.filter (fun x => key x = k')).map val).sum)) := by
      apply List.map_congr_left
      intro k' hk'
      rw [hcongr k' hk']
    rw [List.map_cons, List.sum_cons, hmap, ih l' hnd' hcover',
      sum_filter_add_sum_filter_not l (fun x => key x = k) val]

end SumLemmas

/-- The values contributed to the groupby are exactly the registrations of
the rows whose period is not NaT. -/
lemma keyed_snd (fl : Date → Date) (df : List Row) :
    ((df.filterMap (toKeyed fl)).map Prod.snd)
      = (df.filter (fun r => r.period.isSome)).map Row.registrations := by
  induction df with
  | nil => rfl
  | cons r t ih =>
    cases hp : r.period with
    | none => simpa [List.filterMap_cons, toKeyed, hp, List.filter_cons] using ih
    | some p => simpa [List.filterMap_cons, toKeyed, hp, List.filter_cons] using ih

/-- The grand total of a grouped-and-summed table equals the sum of the
contributed values. -/
lemma groupSumSorted_total_sum (keyed : List (AggKey × ℚ)) :
    ((groupSumSorted keyed).map AggRow.total).sum = (keyed.map Prod.snd).sum := by
  unfold groupSumSorted
  rw [List.map_map]
  have h1 : (AggRow.total ∘ fun k => mkAggRow k (((keyed.filter (fun p => p.1 = k)).map Prod.snd).sum))
      = fun k => ((keyed.filter (fun p => p.1 = k)).map Prod.snd).sum := rfl
  rw [h1]
  have hperm : (List.insertionSort keyRel ((keyed.map Prod.fst).dedup)).Perm ((keyed.map Prod.fst).dedup) :=
    List.perm_insertionSort _ _
  rw [(hperm.map _).sum_eq]
  exact sum_groups Prod.fst Prod.snd _ keyed (List.nodup_dedup _)
    (fun x hx => List.mem_dedup.mpr (List.mem_map_of_mem Prod.fst hx))

/-- C2: for every input table (the model schema always carries a
registrations column), the sum of total over the output of aggregate equals
the sum of registrations over the non-dropped input rows — the rows whose
period is not null (pandas groupby drops null group keys). -/
theorem C2_aggregate_conservation (df : List Row) (freq : String) (t : List AggRow)
    (h : aggregate df freq = .ok t) :
    (t.map AggRow.total).sum
      = ((df.filter (fun r => r.period.isSome)).map Row.registrations).sum := by
  unfold aggregate at h
  split at h
  · next hemp =>
    have hdf : df = [] := List.isEmpty_iff.mp hemp
    cases h
    simp [hdf]
  · split at h
    · cases h; rw [groupSumSorted_total_sum, keyed_snd]
    · split at h
      · cases h; rw [groupSumSorted_total_sum, keyed_snd]
      · split at h
        · cases h; rw [groupSumSorted_total_sum, keyed_snd]
        · cases h

/-- Witness for C2 at a concrete input: two rows merge into one bucket and
one NaT row is dropped. -/
theorem C2_aggregate_conservation_witness :
    aggregate [⟨some ⟨2021, 3, 5⟩, "2W", "Acme", 10⟩, ⟨some ⟨2021, 7, 9⟩, "2W", "Acme", 20⟩,
        ⟨none, "2W", "Acme", 99⟩] "Y" = .ok [mkAggRow ("2W", "Acme", ⟨2021, 1, 1⟩) 30]
    ∧ ([mkAggRow ("2W", "Acme", ⟨2021, 1, 1⟩) 30].map AggRow.total).sum
        = (([⟨some ⟨2021, 3, 5⟩, "2W", "Acme", 10⟩, ⟨some ⟨2021, 7, 9⟩, "2W", "Acme", 20⟩,
            (⟨none, "2W", "Acme", 99⟩ : Row)].filter (fun r => r.period.isSome)).map Row.registrations).sum :=
  ⟨by norm_num +decide [aggregate, groupSumSorted, toKeyed, mkAggRow, keyRel, keyLe,
      Date.floorY, List.insertionSort, List.orderedInsert, List.dedup, List.pwFilter,
      List.filter],
    C2_aggregate_conservation
      [⟨some ⟨2021, 3, 5⟩, "2W", "Acme", 10⟩, ⟨some ⟨2021, 7, 9⟩, "2W", "Acme", 20⟩,
        ⟨none, "2W", "Acme", 99⟩] "Y" [mkAggRow ("2W", "Acme", ⟨2021, 1, 1⟩) 30]
      (by norm_num +decide [aggregate, groupSumSorted, toKeyed, mkAggRow, keyRel, keyLe,
        Date.floorY, List.insertionSort, List.orderedInsert, List.dedup, List.pwFilter,
        List.filter])⟩


/-- Treat the total column of an aggregated table as the registrations
column of a canonical table (the idempotence scenario of the spec). -/
def toRows (t : List AggRow) : List Row :=
  t.map (fun a => ⟨some a.period, a.vehicle_category, a.manufacturer, a.total⟩)

/-- The grouping key of an aggregated row. -/
def aggKeyOf (a : AggRow) : AggKey := (a.vehicle_category, a.manufacturer, a.period)

lemma aggKeyOf_mkAggRow (k : AggKey) (tot : ℚ) : aggKeyOf (mkAggRow k tot) = k := rfl

lemma floorM_idem (d : Date) : Date.floorM (Date.floorM d) = Date.floorM d := rfl

lemma floorQ_idem (d : Date) : Date.floorQ (Date.floorQ d) = Date.floorQ d := by
  unfold Date.floorQ
  simp [Nat.mul_div_cancel_left]

lemma floorY_idem (d : Date) : Date.floorY (Date.floorY d) = Date.floorY d := rfl

lemma groupSumSorted_keys (keyed : List (AggKey × ℚ)) :
    (groupSumSorted keyed).map aggKeyOf
      = List.insertionSort keyRel ((keyed.map Prod.fst).dedup) := by
  unfold groupSumSorted
  rw [List.map_map]
  exact List.map_congr_left (fun k _ => aggKeyOf_mkAggRow k _) |>.trans (List.map_id _)

lemma groupSumSorted_keys_nodup (keyed : List (AggKey × ℚ)) :
    ((groupSumSorted keyed).map aggKeyOf).Nodup := by
  rw [groupSumSorted_keys]
  exact ((List.perm_insertionSort keyRel _).nodup_iff).mpr (List.nodup_dedup _)

lemma groupSumSorted_keys_sorted (keyed : List (AggKey × ℚ)) :
    List.Sorted keyRel ((groupSumSorted keyed).map aggKeyOf) := by
  rw [groupSumSorted_keys]
  exact List.sorted_insertionSort keyRel _

lemma groupSumSorted_period_mem (keyed : List (AggKey × ℚ)) :
    ∀ a ∈ groupSumSorted keyed, ∃ k ∈ keyed, a.period = k.1.2.2 := by
  intro a ha
  unfold groupSumSorted at ha
  rcases List.mem_map.mp ha with ⟨k, hk, rfl⟩
  have hk2 : k ∈ (keyed.map Prod.fst).dedup := ((List.perm_insertionSort keyRel _).mem_iff).mp hk
  rcases List.mem_map.mp (List.mem_dedup.mp hk2) with ⟨p, hp, rfl⟩
  exact ⟨p, hp, rfl⟩

/-- Within a table whose keys are pairwise distinct, the group of a row is
exactly the singleton of that row. -/
lemma filter_key_singleton (t : List AggRow) (hnd : (t.map aggKeyOf).Nodup) :
    ∀ a ∈ t, (t.map (fun b => (aggKeyOf b, b.total))).filter
        (fun p => p.1 = aggKeyOf a) = [(aggKeyOf a, a.total)] := by
  induction t with
  | nil => intro a ha; cases ha
  | cons b t ih =>
    intro a ha
    simp only [List.map_cons, List.nodup_cons] at hnd
    rcases List.mem_cons.mp ha with rfl | hat
    · have hnot : ∀ p ∈ t.map (fun b => (aggKeyOf b, b.total)), ¬ (p.1 = aggKeyOf a) := by
        intro p hp
        rcases List.mem_map.mp hp with ⟨c, hc, rfl⟩
        intro hceq
        exact hnd.1 (hceq ▸ List.mem_map_of_mem aggKeyOf hc)
      have h2 : List.filter (fun p => decide (p.1 = aggKeyOf a))
          (t.map (fun b => (aggKeyOf b, b.total))) = [] :=
        List.filter_eq_nil_iff.mpr (fun p hp => by simpa using hnot p hp)
      rw [List.map_cons, List.filter_cons]
      simp [h2]
    · have hne : aggKeyOf b ≠ aggKeyOf a := by
        intro hbeq
        exact hnd.1 (hbeq ▸ List.mem_map_of_mem aggKeyOf hat)
      rw [List.map_cons, List.filter_cons]
      simp only [decide_eq_true_eq]
      rw [if_neg hne, ih hnd.2 a hat]

/-- A table whose key column is distinct and sorted is a fixed point of the
group-and-sum step. -/
lemma groupSumSorted_fixed (t : List AggRow)
    (hnd : (t.map aggKeyOf).Nodup) (hs : List.Sorted keyRel (t.map aggKeyOf)) :
    groupSumSorted (t.map (fun a => (aggKeyOf a, a.total))) = t := by
  unfold groupSumSorted
  have hfst : (t.map (fun a => (aggKeyOf a, a.total))).map Prod.fst = t.map aggKeyOf := by
    rw [List.map_map]; rfl
  rw [hfst, List.dedup_eq_self.mpr hnd, List.Sorted.insertionSort_eq hs, List.map_map]
  refine (List.map_congr_left ?_).trans (List.map_id t)
  intro a ha
  simp only [Function.comp_apply]
  rw [filter_key_singleton t hnd a ha]
  simp [mkAggRow, aggKeyOf]

/-- The registration rows obtained from an aggregated table re-enter the
groupby with their own keys, provided the flooring fixes their periods. -/
lemma toRows_keyed (t : List AggRow) (fl : Date → Date)
    (hfix : ∀ a ∈ t, fl a.period = a.period) :
    (toRows t).filterMap (toKeyed fl) = t.map (fun a => (aggKeyOf a, a.total)) := by
  unfold toRows
  rw [List.filterMap_map]
  have hpt : ∀ a ∈ t,
      (toKeyed fl ∘ fun a => (⟨some a.period, a.vehicle_category, a.manufacturer, a.total⟩ : Row)) a
        = some (aggKeyOf a, a.total) := by
    intro a ha
    simp [Function.comp, toKeyed, aggKeyOf, hfix a ha]
  calc List.filterMap _ t = t.filterMap (fun a => some (aggKeyOf a, a.total)) :=
        List.filterMap_congr hpt
    _ = t.map (fun a => (aggKeyOf a, a.total)) := by
        rw [← List.filterMap_eq_map]; rfl

/-- Periods in an aggregate output are floored, hence fixed by a second
application of an idempotent flooring. -/
lemma agg_period_fixed (df : List Row) (fl : Date → Date)
    (hfl : ∀ d, fl (fl d) = fl d) :
    ∀ a ∈ groupSumSorted (df.filterMap (toKeyed fl)), fl a.period = a.period := by
  intro a ha
  rcases groupSumSorted_period_mem _ a ha with ⟨k, hk, hper⟩
  rcases List.mem_filterMap.mp hk with ⟨r, _, hr⟩
  unfold toKeyed at hr
  cases hp : r.period with
  | none => rw [hp] at hr; cases hr
  | some p =>
    rw [hp] at hr
    have hr2 : ((r.vehicle_category, r.manufacturer, fl p), r.registrations) = k := by
      simpa using hr
    rw [hper, ← hr2]
    exact hfl p

/-- One frequency branch of the idempotence argument. -/
lemma agg_idem_core (df : List Row) (fl : Date → Date) (hfl : ∀ d, fl (fl d) = fl d) :
    groupSumSorted ((toRows (groupSumSorted (df.filterMap (toKeyed fl)))).filterMap (toKeyed fl))
      = groupSumSorted (df.filterMap (toKeyed fl)) := by
  set t := groupSumSorted (df.filterMap (toKeyed fl)) with ht
  rw [toRows_keyed t fl (ht ▸ agg_period_fixed df fl hfl)]
  exact groupSumSorted_fixed t (ht ▸ groupSumSorted_keys_nodup _) (ht ▸ groupSumSorted_keys_sorted _)

/-- C7: re-aggregating an aggregate output at the same granularity, with
total treated as registrations, reproduces the same table. -/
theorem C7_aggregate_idempotent (df : List Row) (freq : String) (t : List AggRow)
    (h : aggregate df freq = .ok t) : aggregate (toRows t) freq = .ok t := by
  unfold aggregate at h ⊢
  split at h
  · cases h
    simp [toRows]
  · by_cases htnil : t = []
    · subst htnil
      simp [toRows]
    · have hne : (toRows t).isEmpty = false := by
        cases t
        · exact absurd rfl htnil
        · rfl
      rw [hne]
      simp only [Bool.false_eq_true, if_false]
      by_cases hM : freq = "M"
      · rw [if_pos hM] at h ⊢
        injection h with h
        rw [← h, agg_idem_core df Date.floorM floorM_idem]
      · rw [if_neg hM] at h ⊢
        by_cases hQ : freq = "Q"
        · rw [if_pos hQ] at h ⊢
          injection h with h
          rw [← h, agg_idem_core df Date.floorQ floorQ_idem]
        · rw [if_neg hQ] at h ⊢
          by_cases hY : freq = "Y"
          · rw [if_pos hY] at h ⊢
            injection h with h
            rw [← h, agg_idem_core df Date.floorY floorY_idem]
          · rw [if_neg hY] at h
            cases h

/-- Witness for C7 at a concrete input. -/
theorem C7_aggregate_idempotent_witness :
    aggregate (toRows [mkAggRow ("2W", "Acme", ⟨2021, 1, 1⟩) 30]) "Y"
      = .ok [mkAggRow ("2W", "Acme", ⟨2021, 1, 1⟩) 30] :=
  C7_aggregate_idempotent [⟨some ⟨2021, 3, 5⟩, "2W", "Acme", 30⟩] "Y"
    [mkAggRow ("2W", "Acme", ⟨2021, 1, 1⟩) 30]
    (by norm_num +decide [aggregate, groupSumSorted, toKeyed, mkAggRow, keyRel, keyLe,
      Date.floorY, List.insertionSort, List.orderedInsert, List.dedup, List.pwFilter,
      List.filter])

/-- A growth-enriched row: aggregated row plus the three metric columns.
A column the branch does not populate stays NaN (the initialization
df["yoy_pct"] = np.nan etc.). -/
structure GrowthRow where
  period : Date
  vehicle_category : String
  manufacturer : String
  total : ℚ
  yoy_pct : PctVal
  qoq_pct : PctVal
  pop_pct : PctVal
deriving DecidableEq, Repr

/-- A row of the secondary quarterly series returned for monthly input. -/
structure QRow where
  period : Date
  vehicle_category : String
  manufacturer : String
  total : ℚ
  qoq_pct : PctVal
deriving DecidableEq, Repr

/-- pandas Series.pct_change(k) followed by * 100, on a series with no NaN
(aggregated totals are never NaN): position i gets s[i] / s[i-k] - 1.
Per IEEE float semantics: no row at the offset gives NaN, x / 0 gives NaN
for x = 0 and a signed infinity otherwise. -/
def pctChange (k : Nat) (s : List ℚ) : List PctVal :=
  (List.range s.length).map (fun i =>
    if i < k then PctVal.nan
    else
      let d := s.getD (i - k) 0
      let x := s.getD i 0
      if d = 0 then (if x = 0 then PctVal.nan else if 0 < x then PctVal.posInf else PctVal.negInf)
      else PctVal.val ((x / d - 1) * 100))

/-- groupby(["vehicle_category", "manufacturer"]) key. -/
def groupKey (a : AggRow) : String × String := (a.vehicle_category, a.manufacturer)

/-- groupby(key)["total"].transform(lambda s: s.pct_change(k) * 100):
row i receives the pct_change value at its position within its group
(positions follow order of appearance, as pandas transform aligns by index). -/
def transformPct (l : List AggRow) (k : Nat) : List PctVal :=
  l.enum.map (fun ia =>
    (pctChange k ((l.filter (fun b => groupKey b = groupKey ia.2)).map AggRow.total)).getD
      ((l.take ia.1).countP (fun b => groupKey b = groupKey ia.2)) PctVal.nan)

/-- Row order of sort_values(["vehicle_category", "manufacturer", "period"]);
insertionSort is stable, matching the stable pandas lexsort on several keys. -/
def rowRel (a b : AggRow) : Prop := keyRel (aggKeyOf a) (aggKeyOf b)

instance : DecidableRel rowRel := fun a b => inferInstanceAs (Decidable (keyLe (aggKeyOf a) (aggKeyOf b) = true))

/-- Extend sorted aggregated rows with the three growth columns. -/
def mkGrowth : List AggRow → List PctVal → List PctVal → List PctVal → List GrowthRow
  | a :: as, y :: ys, q :: qs, p :: ps =>
      ⟨a.period, a.vehicle_category, a.manufacturer, a.total, y, q, p⟩ :: mkGrowth as ys qs ps
  | _, _, _, _ => []

/-- Assemble the secondary quarterly frame. -/
def mkQ : List AggRow → List PctVal → List QRow
  | a :: as, q :: qs => ⟨a.period, a.vehicle_category, a.manufacturer, a.total, q⟩ :: mkQ as qs
  | _, _ => []

/-- A column of NaN, as created by df["col"] = np.nan. -/
def nanCol (n : Nat) : List PctVal := List.replicate n PctVal.nan

/-- src/processing.py compute_growth.  The empty-input short-circuit
(returning the input unchanged, which is empty, with a None secondary frame)
precedes the frequency dispatch, exactly as in the source. -/
def compute_growth (agg : List AggRow) (freq : String) :
    Except String (List GrowthRow × Option (List QRow)) :=
  if agg.isEmpty then .ok ([], none)
  else
    let df := List.insertionSort rowRel agg
    if freq = "M" then
      let yoy := transformPct df 12
      let q0 := groupSumSorted (df.map (fun a =>
        ((a.vehicle_category, a.manufacturer, Date.floorQ a.period), a.total)))
      .ok (mkGrowth df yoy (nanCol df.length) (nanCol df.length),
        some (mkQ q0 (transformPct q0 1)))
    else if freq = "Q" then
      .ok (mkGrowth df (transformPct df 4) (transformPct df 1) (nanCol df.length), none)
    else if freq = "Y" then
      let yoy := transformPct df 1
      .ok (mkGrowth df yoy (nanCol df.length) yoy, none)
    else .error "freq must be 'M', 'Q', or 'Y'"


/-- C1: the failing input for the zero-denominator behavior.  A yearly
sub-series with totals 0 then 100 yields yoy_pct (and pop_pct) = +infinity
at the second row — pct_change performs 100 / 0 with no zero guard — where
the specification requires null.  (The 0/0 case and the missing-offset case
do yield NaN, i.e. null; only a nonzero total after a zero total diverges.) -/
theorem C1_zero_denominator_gives_infinity :
    compute_growth [⟨⟨2020, 1, 1⟩, "2W", "Acme", 0⟩, ⟨⟨2021, 1, 1⟩, "2W", "Acme", 100⟩] "Y"
      = .ok ([⟨⟨2020, 1, 1⟩, "2W", "Acme", 0, .nan, .nan, .nan⟩,
              ⟨⟨2021, 1, 1⟩, "2W", "Acme", 100, .posInf, .nan, .posInf⟩], none) := by
  norm_num +decide [compute_growth, transformPct, pctChange, mkGrowth, nanCol, groupKey,
    rowRel, keyRel, keyLe, aggKeyOf, List.insertionSort, List.orderedInsert, List.filter,
    List.enum, List.enumFrom, List.range, List.range_succ, List.getD, List.take, List.countP]

/-- C8 counterexample: on an empty table the empty-input short-circuit runs
before the frequency validation, so an unsupported granularity "W" does not
fail — aggregate returns an empty frame and compute_growth returns the input
with a None secondary frame. -/
theorem C8_empty_table_skips_freq_check :
    aggregate [] "W" = .ok [] ∧ compute_growth [] "W" = .ok ([], none) :=
  ⟨rfl, rfl⟩

/-- C8 (amended): for every NONEMPTY input table, aggregate and
compute_growth reject a granularity outside M / Q / Y with the unsupported
frequency error. -/
theorem C8_invalid_freq_errors (freq : String)
    (hM : freq ≠ "M") (hQ : freq ≠ "Q") (hY : freq ≠ "Y")
    (df : List Row) (hdf : df ≠ []) (agg : List AggRow) (hagg : agg ≠ []) :
    aggregate df freq = .error "freq must be 'M', 'Q', or 'Y'"
      ∧ compute_growth agg freq = .error "freq must be 'M', 'Q', or 'Y'" := by
  have hdfe : df.isEmpty = false := by
    cases df
    · exact absurd rfl hdf
    · rfl
  have hagge : agg.isEmpty = false := by
    cases agg
    · exact absurd rfl hagg
    · rfl
  constructor
  · unfold aggregate
    rw [hdfe]
    simp only [Bool.false_eq_true, if_false]
    rw [if_neg hM, if_neg hQ, if_neg hY]
  · unfold compute_growth
    rw [hagge]
    simp only [Bool.false_eq_true, if_false]
    rw [if_neg hM, if_neg hQ, if_neg hY]

/-- Witness for the amended C8 at freq "W" on one-row tables. -/
theorem C8_invalid_freq_errors_witness :
    aggregate [⟨some ⟨2021, 1, 1⟩, "2W", "Acme", 5⟩] "W"
        = .error "freq must be 'M', 'Q', or 'Y'"
      ∧ compute_growth [⟨⟨2021, 1, 1⟩, "2W", "Acme", 5⟩] "W"
        = .error "freq must be 'M', 'Q', or 'Y'" :=
  C8_invalid_freq_errors "W" (by decide) (by decide) (by decide)
    [⟨some ⟨2021, 1, 1⟩, "2W", "Acme", 5⟩] (by simp)
    [⟨⟨2021, 1, 1⟩, "2W", "Acme", 5⟩] (by simp)

lemma aggregate_M (df : List Row) :
    aggregate df "M" = .ok (groupSumSorted (df.filterMap (toKeyed Date.floorM))) := by
  cases df with
  | nil => rfl
  | cons a t => rfl

lemma aggregate_Q (df : List Row) :
    aggregate df "Q" = .ok (groupSumSorted (df.filterMap (toKeyed Date.floorQ))) := by
  cases df with
  | nil => rfl
  | cons a t => rfl

lemma aggregate_Y (df : List Row) :
    aggregate df "Y" = .ok (groupSumSorted (df.filterMap (toKeyed Date.floorY))) := by
  cases df with
  | nil => rfl
  | cons a t => rfl

lemma filterMap_keyed_filter (fl : Date → Date) (df : List Row) :
    (df.filter (fun r => r.period.isSome)).filterMap (toKeyed fl)
      = df.filterMap (toKeyed fl) := by
  induction df with
  | nil => rfl
  | cons r t ih =>
    cases hp : r.period with
    | none => simp [List.filter_cons, List.filterMap_cons, toKeyed, hp, ih]
    | some p => simp [List.filter_cons, List.filterMap_cons, toKeyed, hp, ih]

/-- C10: at any supported granularity, rows whose period is null contribute
to no group and no total — dropping them beforehand leaves the output of
aggregate unchanged. -/
theorem C10_null_period_rows_excluded (df : List Row) (freq : String)
    (hf : freq = "M" ∨ freq = "Q" ∨ freq = "Y") :
    aggregate (df.filter (fun r => r.period.isSome)) freq = aggregate df freq := by
  rcases hf with rfl | rfl | rfl
  · rw [aggregate_M, aggregate_M, filterMap_keyed_filter]
  · rw [aggregate_Q, aggregate_Q, filterMap_keyed_filter]
  · rw [aggregate_Y, aggregate_Y, filterMap_keyed_filter]

/-- Witness for C10: a table with one NaT row and one dated row. -/
theorem C10_null_period_rows_excluded_witness :
    aggregate ([⟨none, "2W", "Acme", 7⟩,
        (⟨some ⟨2021, 2, 3⟩, "2W", "Acme", 5⟩ : Row)].filter (fun r => r.period.isSome)) "Y"
      = aggregate [⟨none, "2W", "Acme", 7⟩, ⟨some ⟨2021, 2, 3⟩, "2W", "Acme", 5⟩] "Y" :=
  C10_null_period_rows_excluded
    [⟨none, "2W", "Acme", 7⟩, ⟨some ⟨2021, 2, 3⟩, "2W", "Acme", 5⟩] "Y"
    (Or.inr (Or.inr rfl))

/-- C5: the classifier is a pure total function into the closed set
{2W, 3W, 4W, OTHER}, deciding by case-insensitive substring tests in fixed
priority order (first matching rule wins); determinism is inherent in it
being a function of the string alone. -/
theorem C5_classifier_total_prioritized (x : String) :
    (map_category x = "2W" ∨ map_category x = "3W" ∨ map_category x = "4W"
        ∨ map_category x = "OTHER")
    ∧ ((strContains (pyLower x) "two" || strContains (pyLower x) "2w") = true
        → map_category x = "2W")
    ∧ ((strContains (pyLower x) "two" || strContains (pyLower x) "2w") = false
        → (strContains (pyLower x) "three" || strContains (pyLower x) "3w"
            || strContains (pyLower x) "auto") = true
        → map_category x = "3W")
    ∧ ((strContains (pyLower x) "two" || strContains (pyLower x) "2w") = false
        → (strContains (pyLower x) "three" || strContains (pyLower x) "3w"
            || strContains (pyLower x) "auto") = false
        → (strContains (pyLower x) "four" || strContains (pyLower x) "4w"
            || strContains (pyLower x) "car" || strContains (pyLower x) "jeep") = true
        → map_category x = "4W")
    ∧ ((strContains (pyLower x) "two" || strContains (pyLower x) "2w") = false
        → (strContains (pyLower x) "three" || strContains (pyLower x) "3w"
            || strContains (pyLower x) "auto") = false
        → (strContains (pyLower x) "four" || strContains (pyLower x) "4w"
            || strContains (pyLower x) "car" || strContains (pyLower x) "jeep") = false
        → map_category x = "OTHER") := by
  cases h2 : (strContains (pyLower x) "two" || strContains (pyLower x) "2w") <;>
    cases h3 : (strContains (pyLower x) "three" || strContains (pyLower x) "3w"
      || strContains (pyLower x) "auto") <;>
    cases h4 : (strContains (pyLower x) "four" || strContains (pyLower x) "4w"
      || strContains (pyLower x) "car" || strContains (pyLower x) "jeep") <;>
    simp [map_category, h2, h3, h4]

/-- Witness for C5: the 3W rule fires on a string that misses the 2W rule. -/
theorem C5_classifier_total_prioritized_witness :
    map_category "Auto Rickshaw" = "3W" :=
  (C5_classifier_total_prioritized "Auto Rickshaw").2.2.1 (by decide) (by decide)

/-- A cell of a raw frame read with dtype=str: a string, a missing value
(NaN), or — after the coercion steps — a number or a timestamp. -/
inductive Cell where
  | str (s : String)
  | num (q : ℚ)
  | date (d : Date)
  | na
deriving DecidableEq, Repr

/-- A labelled column.  Labels may become duplicated after the header
normalization (read_csv itself mangles duplicate headers, so input labels
are distinct, but lower-casing can collide them). -/
abbrev Col := String × List Cell

/-- A raw frame: columns in order. -/
abbrev Table := List Col

def isDigitChar (c : Char) : Bool := decide ('0' ≤ c) && decide (c ≤ '9')

def isSpaceChar (c : Char) : Bool :=
  decide (c = ' ') || decide (c = '\t') || decide (c = '\n') || decide (c = '\r')

/-- Python str.strip() on the character list (ASCII whitespace; the data
this pipeline sees is ASCII). -/
def stripSpaces (l : List Char) : List Char :=
  ((l.dropWhile isSpaceChar).reverse.dropWhile isSpaceChar).reverse

/-- Python str.strip() for strings. -/
def pyStrip (s : String) : String := String.mk (stripSpaces s.data)

def digitVal (c : Char) : Nat :=
  if c = '1' then 1 else if c = '2' then 2 else if c = '3' then 3 else if c = '4' then 4
  else if c = '5' then 5 else if c = '6' then 6 else if c = '7' then 7 else if c = '8' then 8
  else if c = '9' then 9 else 0

def digitsToNat (l : List Char) : Nat := l.foldl (fun acc c => 10 * acc + digitVal c) 0

/-- Leading sign of a numeric literal: (isNegative, rest). -/
def stripSign : List Char → (Bool × List Char)
  | '-' :: rest => (true, rest)
  | '+' :: rest => (false, rest)
  | l => (false, l)

/-- Split at the first exponent marker e / E. -/
def splitOnExp : List Char → (List Char × Option (List Char))
  | [] => ([], none)
  | c :: rest =>
      if c = 'e' ∨ c = 'E' then ([], some rest)
      else
        let p := splitOnExp rest
        (c :: p.1, p.2)

/-- Split at the first decimal point. -/
def splitOnDot : List Char → (List Char × Option (List Char))
  | [] => ([], none)
  | c :: rest =>
      if c = '.' then ([], some rest)
      else
        let p := splitOnDot rest
        (c :: p.1, p.2)

/-- Unsigned decimal mantissa: digits, optionally with one decimal point,
at least one digit overall (so "1", "1.", ".5", "1.5" parse; "" and "." do
not; a second point lands among the fraction characters and fails). -/
def parseMantissa (l : List Char) : Option ℚ :=
  match splitOnDot l with
  | (ip, none) =>
      if ip ≠ [] ∧ ip.all isDigitChar then some (digitsToNat ip : ℚ) else none
  | (ip, some fp) =>
      if (ip ≠ [] ∨ fp ≠ []) ∧ ip.all isDigitChar ∧ fp.all isDigitChar then
        some ((digitsToNat ip : ℚ) + (digitsToNat fp : ℚ) / (10 : ℚ) ^ fp.length)
      else none

/-- Signed integer exponent. -/
def parseExp (l : List Char) : Option Int :=
  let p := stripSign l
  if p.2 ≠ [] ∧ p.2.all isDigitChar then
    some (if p.1 then -(digitsToNat p.2 : Int) else (digitsToNat p.2 : Int))
  else none

/-- The numeric-string parser behind pd.to_numeric: an optional sign, a
decimal mantissa and an optional exponent, with surrounding whitespace
tolerated.  Exact rational value.  The IEEE literals "nan" and "inf" are
treated as parse failures here: for "nan" this is observationally identical
in this pipeline (to_numeric gives NaN, which fillna(0) then replaces, and
our caller defaults to 0 likewise); textual infinities are outside the
model's value domain and do not occur in registration data. -/
def parseFloatQ (s : String) : Option ℚ :=
  let p := stripSign (stripSpaces s.data)
  match splitOnExp p.2 with
  | (m, none) => (parseMantissa m).map (fun q => if p.1 then -q else q)
  | (m, some e) =>
      match parseMantissa m, parseExp e with
      | some q, some ex => some ((if p.1 then -q else q) * (10 : ℚ) ^ ex)
      | _, _ => none

example : parseFloatQ "1234" = some 1234 := by
  norm_num +decide [parseFloatQ, stripSign, stripSpaces, splitOnExp, splitOnDot, parseMantissa,
    digitsToNat, digitVal, isDigitChar]
example : parseFloatQ "-5" = some (-5) := by
  norm_num +decide [parseFloatQ, stripSign, stripSpaces, splitOnExp, splitOnDot, parseMantissa,
    digitsToNat, digitVal, isDigitChar]
example : parseFloatQ "2.5e1" = some 25 := by
  norm_num +decide [parseFloatQ, stripSign, stripSpaces, splitOnExp, splitOnDot, parseMantissa,
    parseExp, digitsToNat, digitVal, isDigitChar]
example : parseFloatQ "abc" = none := by
  norm_num +decide [parseFloatQ, stripSign, stripSpaces, splitOnExp, splitOnDot, parseMantissa,
    digitsToNat, digitVal, isDigitChar]
example : parseFloatQ "" = none := by
  norm_num +decide [parseFloatQ, stripSign, stripSpaces, splitOnExp, splitOnDot, parseMantissa,
    digitsToNat, digitVal, isDigitChar]

/-- All columns of a frame carrying a label (pandas label indexing can hit
several columns once headers have been normalized). -/
def getCols (t : Table) (name : String) : List (List Cell) :=
  (t.filter (fun c => c.1 = name)).map Prod.snd

/-- name in df.columns. -/
def hasCol (t : Table) (name : String) : Bool := t.any (fun c => c.1 = name)

/-- df[name] = vals: replace matching columns in place, else append. -/
def setCol (t : Table) (name : String) (vals : List Cell) : Table :=
  if hasCol t name then t.map (fun c => if c.1 = name then (name, vals) else c)
  else t ++ [(name, vals)]

/-- df[name] as a single Series: raises KeyError when the label is absent
and the given error when it is duplicated (the duplicated-label frame makes
the subsequent Series operation raise, e.g. pd.to_numeric on a DataFrame). -/
def getTheCol (t : Table) (name : String) (errDup : String) : Except String (List Cell) :=
  match getCols t name with
  | [c] => .ok c
  | [] => .error ("KeyError: " ++ name)
  | _ => .error errDup

/-- Row count of the frame (columns all share one length). -/
def rowCount (t : Table) : Nat := ((t.head?).map (fun c => c.2.length)).getD 0

/-- The year digits when the pattern of re.search(r"maker (\d{4})", name,
re.IGNORECASE) matches at this position. -/
def yearAt : List Char → Option Nat
  | m1 :: m2 :: m3 :: m4 :: m5 :: sp :: d1 :: d2 :: d3 :: d4 :: _ =>
      if [m1, m2, m3, m4, m5].map Char.toLower = ['m', 'a', 'k', 'e', 'r'] ∧ sp = ' '
          ∧ isDigitChar d1 ∧ isDigitChar d2 ∧ isDigitChar d3 ∧ isDigitChar d4 then
        some (digitVal d1 * 1000 + digitVal d2 * 100 + digitVal d3 * 10 + digitVal d4)
      else none
  | _ => none

/-- Leftmost match, as re.search scans. -/
def searchYear : List Char → Option Nat
  | [] => none
  | c :: rest =>
      match yearAt (c :: rest) with
      | some y => some y
      | none => searchYear rest

/-- Year extraction from the source file name (the argument is the basename,
as os.path.basename has already been applied by the caller). -/
def extractYear (s : String) : Option Nat := searchYear s.data

example : extractYear "maker 2021.csv" = some 2021 := by decide
example : extractYear "MAKER 1999 copy.csv" = some 1999 := by decide
example : extractYear "maker data.csv" = none := by decide

/-- Python str(x) for a cell: strings pass through, NaN prints as "nan".
The numeric and timestamp renderings are simplified (exact float and
timestamp formatting is irrelevant here: those branches are only reached by
the category classifier, whose keyword matching cannot fire on digits
either way). -/
def pyStr : Cell → String
  | .str s => s
  | .num q => toString q.num
  | .date _ => "Timestamp"
  | .na => "nan"

/-- pd.to_numeric(col, errors="coerce") on one cell.  A timestamp cell
cannot occur in a year column of this pipeline. -/
def toNumericCoerce : Cell → Cell
  | .num q => .num q
  | .na => .na
  | .str s =>
      match parseFloatQ s with
      | some q => .num q
      | none => .na
  | .date _ => .na

/-- Series.astype("Int64"): floats must be integral, NaN becomes NA.
Runs on the output of toNumericCoerce, so only num / na occur. -/
def astypeInt64 (cells : List Cell) : Except String (List (Option Int)) :=
  cells.mapM (fun c =>
    match c with
    | .num q => if q.den = 1 then .ok (some q.num)
        else .error "TypeError: cannot safely cast non-equivalent float64 to int64"
    | .na => .ok none
    | _ => .error "astype Int64: unexpected cell")

/-- pd.to_datetime(str(y) ++ "-01-01", errors="coerce"): the Timestamp range
(1677-09-21 .. 2262-04-11) admits exactly the January firsts of 1678..2262;
everything else (including the "<NA>-01-01" string an NA produces) is NaT. -/
def parseDateYear (i : Int) : Option Date :=
  if 1678 ≤ i ∧ i ≤ 2262 then some ⟨i, 1, 1⟩ else none

/-- str.replace(",", "") — remove every comma. -/
def removeCommas (s : String) : String := String.mk (s.data.filter (fun c => ¬ (c = ',')))

/-- One registrations cell: astype(str), drop commas, strip, to_numeric
with coercion, fillna(0). -/
def cleanReg (c : Cell) : ℚ :=
  match parseFloatQ (pyStrip (removeCommas (pyStr c))) with
  | some q => q
  | none => 0

/-- A canonical record as emitted by the normalizer (the projection of line
77): every field is the untouched cell of the corresponding column. -/
structure NormRow where
  period : Cell
  year : Cell
  vehicle_category : Cell
  manufacturer : Cell
  registrations : Cell
deriving DecidableEq, Repr

/-- Zip the five projected columns into records. -/
def zipRows : List Cell → List Cell → List Cell → List Cell → List Cell → List NormRow
  | p :: ps, y :: ys, v :: vs, m :: ms, r :: rs => ⟨p, y, v, m, r⟩ :: zipRows ps ys vs ms rs
  | _, _, _, _, _ => []

/-- Lines 32-34: set the year column from the file name when the pattern
matches, overwriting any column with that exact (pre-normalization) label. -/
def withFileYear (filename : String) (t0 : Table) : Table :=
  match extractYear filename with
  | some y => setCol t0 "year" (List.replicate (rowCount t0) (Cell.num y))
  | none => t0

/-- Lines 37-43: strip and lower-case the headers, then apply the synonym
renames total -> registrations and maker -> manufacturer. -/
def headerNormalize (t : Table) : Table :=
  (t.map (fun c => (pyLower (pyStrip c.1), c.2))).map (fun c =>
    (if c.1 = "total" then "registrations"
      else if c.1 = "maker" then "manufacturer" else c.1, c.2))

/-- Line 49: the period cells derived from the Int64 year column. -/
def periodCells (yInt : List (Option Int)) : List Cell :=
  yInt.map (fun oi =>
    match oi with
    | some i =>
        match parseDateYear i with
        | some d => Cell.date d
        | none => Cell.na
    | none => Cell.na)

/-- Lines 52-58: registrations cleaning, or the 0.0 default column. -/
def regStep (t5 : Table) (n : Nat) : Except String Table :=
  if hasCol t5 "registrations" then do
    let rcol ← getTheCol t5 "registrations" "AttributeError: str accessor on a DataFrame"
    pure (setCol t5 "registrations" (rcol.map (fun c => Cell.num (cleanReg c))))
  else pure (setCol t5 "registrations" (List.replicate n (Cell.num 0)))

/-- Lines 61-74: vehicle category classification, or the OTHER default. -/
def catStep (t6 : Table) (n : Nat) : Except String Table :=
  if hasCol t6 "vehicle_category" then do
    let vcol ← getTheCol t6 "vehicle_category" "apply on a duplicated label"
    pure (setCol t6 "vehicle_category"
      (vcol.map (fun c => Cell.str (map_category (pyStr c)))))
  else pure (setCol t6 "vehicle_category" (List.replicate n (Cell.str "OTHER")))

/-- Line 77: project to the canonical columns and build the records. -/
def projectStep (t7 : Table) : Except String (List NormRow) := do
  let pcol ← getTheCol t7 "period" "duplicated period label"
  let ycol2 ← getTheCol t7 "year" "duplicated year label"
  let vcol2 ← getTheCol t7 "vehicle_category" "duplicated vehicle_category label"
  let mcol ← getTheCol t7 "manufacturer" "duplicated manufacturer label"
  let rcol2 ← getTheCol t7 "registrations" "duplicated registrations label"
  pure (zipRows pcol ycol2 vcol2 mcol rcol2)

/-- src/data_loader.py load_and_normalize, per source file (the loop body of
lines 23-77).  The argument is (basename, frame read with dtype=str).
Line 46 raises KeyError when no year column survives normalization, and
pd.to_numeric raises when the year label is duplicated. -/
def normalizeFile (filename : String) (t0 : Table) : Except String (List NormRow) :=
  getTheCol (headerNormalize (withFileYear filename t0)) "year"
      "TypeError: to_numeric on a DataFrame" >>= fun ycol =>
  astypeInt64 (ycol.map toNumericCoerce) >>= fun yInt =>
  regStep
    (setCol
      (setCol (headerNormalize (withFileYear filename t0)) "year" (ycol.map toNumericCoerce))
      "period" (periodCells yInt))
    (rowCount t0) >>= fun t6 =>
  catStep t6 (rowCount t0) >>= fun t7 =>
  projectStep t7

/-- src/data_loader.py load_and_normalize: discovery failure when no file
matches, else concatenation of the per-file canonical tables.  (The metadata
value, constantly the yearly granularity, is not modelled.) -/
def load_and_normalize (files : List (String × Table)) : Except String (List NormRow) :=
  if files.isEmpty then
    .error "FileNotFoundError: No CSV files found matching maker *.csv"
  else do
    let dfs ← files.mapM (fun f => normalizeFile f.1 f.2)
    pure dfs.flatten

lemma getCols_setCol_ne (t : Table) (name : String) (vals : List Cell) (nm : String)
    (h : ¬ nm = name) : getCols (setCol t name vals) nm = getCols t nm := by
  have hnn : ¬ name = nm := fun he => h he.symm
  have hfl : (t.map (fun c => if c.1 = name then (name, vals) else c)).filter
      (fun c => c.1 = nm) = t.filter (fun c => c.1 = nm) := by
    induction t with
    | nil => rfl
    | cons c t ih =>
      by_cases hc : c.1 = name
      · rw [List.map_cons, if_pos hc, List.filter_cons, List.filter_cons]
        have h2 : ¬ (c.1 = nm) := fun he => hnn (hc ▸ he)
        simp only [show (decide ((name, vals).1 = nm)) = false by simpa using hnn,
          show (decide (c.1 = nm)) = false by simpa using h2, Bool.false_eq_true, if_false]
        exact ih
      · rw [List.map_cons, if_neg hc, List.filter_cons, List.filter_cons]
        by_cases hcn : c.1 = nm <;> simp [hcn, ih]
  unfold setCol
  split
  · unfold getCols
    rw [hfl]
  · unfold getCols
    rw [List.filter_append]
    simp [List.filter_cons, hnn]

lemma filter_setCol_unique (t : Table) (name : String) (vals : List Cell) (c0 : Col)
    (h : t.filter (fun c => c.1 = name) = [c0]) :
    (t.map (fun c => if c.1 = name then (name, vals) else c)).filter
      (fun c => c.1 = name) = [(name, vals)] := by
  induction t with
  | nil => cases h
  | cons a t ih =>
    by_cases ha : a.1 = name
    · rw [List.filter_cons_of_pos (by simpa using ha)] at h
      have htl : t.filter (fun c => c.1 = name) = [] := by
        cases hf : t.filter (fun c => c.1 = name) with
        | nil => rfl
        | cons b l => rw [hf] at h; cases h
      have hmap : (t.map (fun c => if c.1 = name then (name, vals) else c)).filter
          (fun c => c.1 = name) = [] := by
        rw [List.filter_eq_nil_iff] at htl ⊢
        intro b hb
        rcases List.mem_map.mp hb with ⟨b0, hb0, rfl⟩
        by_cases hb1 : b0.1 = name
        · exact absurd (by simpa using (htl b0 hb0)) (by simp [hb1])
        · simpa [hb1] using hb1
      rw [List.map_cons, if_pos ha, List.filter_cons_of_pos (by simp), hmap]
    · rw [List.filter_cons_of_neg (by simpa using ha)] at h
      rw [List.map_cons, if_neg ha, List.filter_cons_of_neg (by simpa using ha)]
      exact ih h

lemma getCols_setCol_unique (t : Table) (name : String) (vals : List Cell) (c : List Cell)
    (h : getCols t name = [c]) : getCols (setCol t name vals) name = [vals] := by
  unfold getCols at h
  cases hf : t.filter (fun c => c.1 = name) with
  | nil => rw [hf] at h; cases h
  | cons a l =>
    have hl : l = [] := by
      rw [hf] at h
      cases l with
      | nil => rfl
      | cons b m => cases h
    subst hl
    have hhas : hasCol t name = true := by
      have ha : a ∈ t.filter (fun c => c.1 = name) := by rw [hf]; exact List.mem_cons_self a []
      rcases List.mem_filter.mp ha with ⟨hat, hname⟩
      exact List.any_eq_true.mpr ⟨a, hat, hname⟩
    unfold setCol getCols
    rw [if_pos hhas, filter_setCol_unique t name vals a hf]
    rfl

lemma getCols_append_single (t : Table) (name nm : String) (vals : List Cell) :
    getCols (t ++ [(name, vals)]) nm
      = getCols t nm ++ (if name = nm then [vals] else []) := by
  unfold getCols
  rw [List.filter_append, List.map_append]
  congr 1
  by_cases h : name = nm <;> simp [List.filter_cons, h]

lemma getCols_nil_of_hasCol_false (t : Table) (name : String)
    (h : hasCol t name = false) : getCols t name = [] := by
  unfold getCols
  rw [List.filter_eq_nil_iff.mpr, List.map_nil]
  intro c hc
  intro hcc
  unfold hasCol at h
  rw [List.any_eq_false] at h
  exact absurd hcc (by simpa using h c hc)

lemma mem_zipRows_registrations (p y v m e : List Cell) (r : NormRow)
    (hr : r ∈ zipRows p y v m e) : r.registrations ∈ e := by
  induction p generalizing y v m e with
  | nil => cases hr
  | cons a ps ih =>
    cases y with
    | nil => cases hr
    | cons b ys =>
      cases v with
      | nil => cases hr
      | cons c vs =>
        cases m with
        | nil => cases hr
        | cons d ms =>
          cases e with
          | nil => cases hr
          | cons f es =>
            rcases List.mem_cons.mp hr with rfl | hmem
            · exact List.mem_cons_self _ _
            · exact List.mem_cons_of_mem _ (ih ys vs ms es hmem)

lemma getTheCol_ok (t : Table) (name err : String) (c : List Cell)
    (h : getTheCol t name err = .ok c) : getCols t name = [c] := by
  unfold getTheCol at h
  split at h
  · next heq => cases h; exact heq
  · cases h
  · cases h

/-- All cells of the column are numbers. -/
def allNum (l : List Cell) : Prop := ∀ c ∈ l, ∃ q, c = Cell.num q

lemma regStep_ok (t5 : Table) (n : Nat) (t6 : Table) (h : regStep t5 n = .ok t6) :
    ∃ vals, getCols t6 "registrations" = [vals] ∧ allNum vals := by
  unfold regStep at h
  split at h
  · simp only [bind, Except.bind] at h
    split at h
    · cases h
    · next rcol hr =>
      simp only [pure, Except.pure, Except.ok.injEq] at h
      subst h
      refine ⟨rcol.map (fun c => Cell.num (cleanReg c)), ?_, ?_⟩
      · exact getCols_setCol_unique t5 "registrations" _ rcol (getTheCol_ok _ _ _ _ hr)
      · intro c hc
        rcases List.mem_map.mp hc with ⟨c0, _, rfl⟩
        exact ⟨cleanReg c0, rfl⟩
  · next hno =>
    simp only [pure, Except.pure, Except.ok.injEq] at h
    subst h
    refine ⟨List.replicate n (Cell.num 0), ?_, ?_⟩
    · unfold setCol
      rw [if_neg (by simpa using hno), getCols_append_single,
        getCols_nil_of_hasCol_false t5 "registrations" (by simpa using hno)]
      simp
    · intro c hc
      rw [List.eq_of_mem_replicate hc]
      exact ⟨0, rfl⟩

lemma catStep_reg (t6 : Table) (n : Nat) (t7 : Table) (h : catStep t6 n = .ok t7) :
    getCols t7 "registrations" = getCols t6 "registrations" := by
  unfold catStep at h
  split at h
  · simp only [bind, Except.bind] at h
    split at h
    · cases h
    · simp only [pure, Except.pure, Except.ok.injEq] at h
      subst h
      exact getCols_setCol_ne _ _ _ _ (by decide)
  · simp only [pure, Except.pure, Except.ok.injEq] at h
    subst h
    exact getCols_setCol_ne _ _ _ _ (by decide)

lemma projectStep_reg (t7 : Table) (out : List NormRow) (h : projectStep t7 = .ok out) :
    ∃ rc, getCols t7 "registrations" = [rc] ∧ ∀ r ∈ out, r.registrations ∈ rc := by
  unfold projectStep at h
  simp only [bind, Except.bind] at h
  split at h
  · cases h
  · split at h
    · cases h
    · split at h
      · cases h
      · split at h
        · cases h
        · split at h
          · cases h
          · next rcol2 hr =>
            simp only [pure, Except.pure, Except.ok.injEq] at h
            subst h
            exact ⟨rcol2, getTheCol_ok _ _ _ _ hr,
              fun r hr2 => mem_zipRows_registrations _ _ _ _ _ r hr2⟩

lemma normalizeFile_registrations_num (fn : String) (t : Table) (out : List NormRow)
    (h : normalizeFile fn t = .ok out) :
    ∀ r ∈ out, ∃ q, r.registrations = Cell.num q := by
  unfold normalizeFile at h
  simp only [bind, Except.bind] at h
  split at h
  · cases h
  · split at h
    · cases h
    · split at h
      · cases h
      · next t6 ht6 =>
        split at h
        · cases h
        · next t7 ht7 =>
          rcases regStep_ok _ _ _ ht6 with ⟨vals, hv, hnum⟩
          rcases projectStep_reg _ _ h with ⟨rc, hrc, hmem⟩
          rw [catStep_reg _ _ _ ht7, hv] at hrc
          intro r hr
          have : r.registrations ∈ vals := by
            injection hrc with h1
            rw [h1]
            exact hmem r hr
          exact hnum _ this

/-- One raw CSV row of the standard maker-file schema (all fields read as
strings). -/
structure Raw4 where
  year : String
  maker : String
  total : String
  vcat : String

/-- The standard maker file: columns year, maker, total, vehicle_category. -/
def mkTbl4 (rows : List Raw4) : Table :=
  [("year", rows.map (fun r => Cell.str r.year)),
   ("maker", rows.map (fun r => Cell.str r.maker)),
   ("total", rows.map (fun r => Cell.str r.total)),
   ("vehicle_category", rows.map (fun r => Cell.str r.vcat))]

/-- A maker file carrying no year column. -/
def mkTblNoYear (rows : List Raw4) : Table :=
  [("maker", rows.map (fun r => Cell.str r.maker)),
   ("total", rows.map (fun r => Cell.str r.total)),
   ("vehicle_category", rows.map (fun r => Cell.str r.vcat))]

lemma zipRows_map_all {β : Type} (l : List β) (f1 f2 f3 f4 f5 : β → Cell) :
    zipRows (l.map f1) (l.map f2) (l.map f3) (l.map f4) (l.map f5)
      = l.map (fun b => ⟨f1 b, f2 b, f3 b, f4 b, f5 b⟩) := by
  induction l with
  | nil => rfl
  | cons a t ih => simp [zipRows, ih]

lemma mapM_loop_replicate {α β : Type} (f : α → Except String β) (a : α) (b : β)
    (hf : f a = .ok b) (n : Nat) (acc : List β) :
    List.mapM.loop f (List.replicate n a) acc = .ok ((acc.reverse ++ List.replicate n b)) := by
  induction n generalizing acc with
  | zero => simp [List.mapM.loop, pure, Except.pure]
  | succ n ih =>
    rw [List.replicate_succ, List.mapM.loop]
    simp only [hf, bind, Except.bind, ih]
    rw [List.replicate_succ]
    simp

lemma astypeInt64_replicate_2021 (n : Nat) :
    astypeInt64 (List.replicate n (Cell.num 2021)) = .ok (List.replicate n (some (2021 : Int))) := by
  unfold astypeInt64 List.mapM
  rw [mapM_loop_replicate _ _ (some (2021 : Int)) (by norm_num) n []]
  rfl

lemma except_bind_ok {ε α β : Type} (a : α) (f : α → Except ε β) :
    (Except.ok a : Except ε α) >>= f = f a := rfl

lemma except_map_ok {ε α β : Type} (a : α) (f : α → β) :
    (Except.ok a : Except ε α).map f = .ok (f a) := rfl

lemma replicate_length_eq_map {β : Type} (l : List β) (c : Cell) :
    List.replicate l.length c = l.map (fun _ => c) := by
  induction l with
  | nil => rfl
  | cons a t ih => rw [List.length_cons, List.replicate_succ, List.map_cons, ih]

/-- Full symbolic evaluation of the per-file normalization on the standard
schema with the file name "maker 2021.csv": the year column is overwritten
by the file-name year for every row regardless of its own content, periods
become 2021-01-01, manufacturer strings pass through untouched, category is
classified, and registrations are cleaned. -/
lemma normalizeFile_std (rows : List Raw4) :
    normalizeFile "maker 2021.csv" (mkTbl4 rows)
      = .ok (rows.map (fun r =>
          ⟨Cell.date ⟨2021, 1, 1⟩, Cell.num 2021, Cell.str (map_category r.vcat),
            Cell.str r.maker, Cell.num (cleanReg (Cell.str r.total))⟩)) := by
  have hn : rowCount (mkTbl4 rows) = rows.length := by
    simp [rowCount, mkTbl4]
  have h2 : headerNormalize (withFileYear "maker 2021.csv" (mkTbl4 rows))
      = [("year", List.replicate rows.length (Cell.num 2021)),
         ("manufacturer", rows.map (fun r => Cell.str r.maker)),
         ("registrations", rows.map (fun r => Cell.str r.total)),
         ("vehicle_category", rows.map (fun r => Cell.str r.vcat))] := by
    have h1 : withFileYear "maker 2021.csv" (mkTbl4 rows)
        = [("year", List.replicate rows.length (Cell.num 2021)),
           ("maker", rows.map (fun r => Cell.str r.maker)),
           ("total", rows.map (fun r => Cell.str r.total)),
           ("vehicle_category", rows.map (fun r => Cell.str r.vcat))] := by
      unfold withFileYear
      rw [show extractYear "maker 2021.csv" = some 2021 from by decide, hn]
      simp +decide [mkTbl4, setCol, hasCol]
    rw [h1]
    simp +decide [headerNormalize, pyLower, pyStrip, stripSpaces, isSpaceChar]
  unfold normalizeFile
  rw [hn, h2]
  rw [show getTheCol
      [("year", List.replicate rows.length (Cell.num 2021)),
       ("manufacturer", rows.map (fun r => Cell.str r.maker)),
       ("registrations", rows.map (fun r => Cell.str r.total)),
       ("vehicle_category", rows.map (fun r => Cell.str r.vcat))] "year"
      "TypeError: to_numeric on a DataFrame" = .ok (List.replicate rows.length (Cell.num 2021))
    from by simp +decide [getTheCol, getCols, List.filter]]
  rw [except_bind_ok]
  simp only [List.map_replicate]
  rw [show toNumericCoerce (Cell.num 2021) = Cell.num 2021 from rfl]
  rw [astypeInt64_replicate_2021, except_bind_ok]
  rw [show periodCells (List.replicate rows.length (some (2021 : Int)))
      = List.replicate rows.length (Cell.date ⟨2021, 1, 1⟩) from by
    unfold periodCells
    rw [List.map_replicate]
    norm_num [parseDateYear]]
  rw [show setCol
      [("year", List.replicate rows.length (Cell.num 2021)),
       ("manufacturer", rows.map (fun r => Cell.str r.maker)),
       ("registrations", rows.map (fun r => Cell.str r.total)),
       ("vehicle_category", rows.map (fun r => Cell.str r.vcat))] "year"
      (List.replicate rows.length (Cell.num 2021))
      = [("year", List.replicate rows.length (Cell.num 2021)),
         ("manufacturer", rows.map (fun r => Cell.str r.maker)),
         ("registrations", rows.map (fun r => Cell.str r.total)),
         ("vehicle_category", rows.map (fun r => Cell.str r.vcat))]
    from by simp +decide [setCol, hasCol]]
  rw [show setCol
      [("year", List.replicate rows.length (Cell.num 2021)),
       ("manufacturer", rows.map (fun r => Cell.str r.maker)),
       ("registrations", rows.map (fun r => Cell.str r.total)),
       ("vehicle_category", rows.map (fun r => Cell.str r.vcat))] "period"
      (List.replicate rows.length (Cell.date ⟨2021, 1, 1⟩))
      = [("year", List.replicate rows.length (Cell.num 2021)),
         ("manufacturer", rows.map (fun r => Cell.str r.maker)),
         ("registrations", rows.map (fun r => Cell.str r.total)),
         ("vehicle_category", rows.map (fun r => Cell.str r.vcat)),
         ("period", List.replicate rows.length (Cell.date ⟨2021, 1, 1⟩))]
    from by simp +decide [setCol, hasCol]]
  rw [show regStep
      [("year", List.replicate rows.length (Cell.num 2021)),
       ("manufacturer", rows.map (fun r => Cell.str r.maker)),
       ("registrations", rows.map (fun r => Cell.str r.total)),
       ("vehicle_category", rows.map (fun r => Cell.str r.vcat)),
       ("period", List.replicate rows.length (Cell.date ⟨2021, 1, 1⟩))] rows.length
      = .ok [("year", List.replicate rows.length (Cell.num 2021)),
         ("manufacturer", rows.map (fun r => Cell.str r.maker)),
         ("registrations", rows.map (fun r => Cell.num (cleanReg (Cell.str r.total)))),
         ("vehicle_category", rows.map (fun r => Cell.str r.vcat)),
         ("period", List.replicate rows.length (Cell.date ⟨2021, 1, 1⟩))]
    from by
      simp +decide [regStep, hasCol, getTheCol, getCols, List.filter, setCol, except_bind_ok,
        List.map_map, Function.comp]]
  rw [except_bind_ok]
  rw [show catStep
      [("year", List.replicate rows.length (Cell.num 2021)),
       ("manufacturer", rows.map (fun r => Cell.str r.maker)),
       ("registrations", rows.map (fun r => Cell.num (cleanReg (Cell.str r.total)))),
       ("vehicle_category", rows.map (fun r => Cell.str r.vcat)),
       ("period", List.replicate rows.length (Cell.date ⟨2021, 1, 1⟩))] rows.length
      = .ok [("year", List.replicate rows.length (Cell.num 2021)),
         ("manufacturer", rows.map (fun r => Cell.str r.maker)),
         ("registrations", rows.map (fun r => Cell.num (cleanReg (Cell.str r.total)))),
         ("vehicle_category", rows.map (fun r => Cell.str (map_category r.vcat))),
         ("period", List.replicate rows.length (Cell.date ⟨2021, 1, 1⟩))]
    from by
      simp +decide [catStep, hasCol, getTheCol, getCols, List.filter, setCol, except_bind_ok,
        List.map_map, Function.comp, pyStr]]
  rw [except_bind_ok]
  rw [show projectStep
      [("year", List.replicate rows.length (Cell.num 2021)),
       ("manufacturer", rows.map (fun r => Cell.str r.maker)),
       ("registrations", rows.map (fun r => Cell.num (cleanReg (Cell.str r.total)))),
       ("vehicle_category", rows.map (fun r => Cell.str (map_category r.vcat))),
       ("period", List.replicate rows.length (Cell.date ⟨2021, 1, 1⟩))]
      = .ok (zipRows (List.replicate rows.length (Cell.date ⟨2021, 1, 1⟩))
          (List.replicate rows.length (Cell.num 2021))
          (rows.map (fun r => Cell.str (map_category r.vcat)))
          (rows.map (fun r => Cell.str r.maker))
          (rows.map (fun r => Cell.num (cleanReg (Cell.str r.total)))))
    from by
      simp +decide [projectStep, getTheCol, getCols, List.filter, except_bind_ok]]
  rw [replicate_length_eq_map rows (Cell.date ⟨2021, 1, 1⟩),
    replicate_length_eq_map rows (Cell.num 2021), zipRows_map_all]

/-- When the file name has no maker-year pattern and the source has no year
column, line 46 raises KeyError (the source fails; it is not loaded with an
unset year). -/
lemma normalizeFile_noYear (fn : String) (hfn : extractYear fn = none) (rows : List Raw4) :
    normalizeFile fn (mkTblNoYear rows) = .error "KeyError: year" := by
  unfold normalizeFile
  rw [show headerNormalize (withFileYear fn (mkTblNoYear rows))
      = [("manufacturer", rows.map (fun r => Cell.str r.maker)),
         ("registrations", rows.map (fun r => Cell.str r.total)),
         ("vehicle_category", rows.map (fun r => Cell.str r.vcat))] from by
    unfold withFileYear
    rw [hfn]
    simp +decide [mkTblNoYear, headerNormalize, pyLower, pyStrip, stripSpaces, isSpaceChar]]
  rw [show getTheCol
      [("manufacturer", rows.map (fun r => Cell.str r.maker)),
       ("registrations", rows.map (fun r => Cell.str r.total)),
       ("vehicle_category", rows.map (fun r => Cell.str r.vcat))] "year"
      "TypeError: to_numeric on a DataFrame" = .error "KeyError: year" from by
    simp +decide [getTheCol, getCols, List.filter]]
  rfl

lemma mapM_loop_ok_mem {α β : Type} (f : α → Except String β) (l : List α)
    (acc out : List β) (h : List.mapM.loop f l acc = .ok out) :
    ∀ b ∈ out, b ∈ acc ∨ ∃ a ∈ l, f a = .ok b := by
  induction l generalizing acc with
  | nil =>
    intro b hb
    have hout : out = acc.reverse := by
      simp only [List.mapM.loop, pure, Except.pure, Except.ok.injEq] at h
      exact h.symm
    exact Or.inl (by simpa [hout] using hb)
  | cons x xs ih =>
    intro b hb
    rw [List.mapM.loop] at h
    cases hf : f x with
    | error e => rw [hf] at h; cases h
    | ok y =>
      rw [hf] at h
      simp only [bind, Except.bind] at h
      rcases ih (y :: acc) h b hb with hacc | ⟨a, ha, hfa⟩
      · rcases List.mem_cons.mp hacc with rfl | hin
        · exact Or.inr ⟨x, List.mem_cons_self x xs, hf⟩
        · exact Or.inl hin
      · exact Or.inr ⟨a, List.mem_cons_of_mem x ha, hfa⟩

lemma mapM_ok_mem {α β : Type} (f : α → Except String β) (l : List α) (out : List β)
    (h : l.mapM f = .ok out) : ∀ b ∈ out, ∃ a ∈ l, f a = .ok b := by
  intro b hb
  rcases mapM_loop_ok_mem f l [] out h b hb with hacc | hex
  · cases hacc
  · exact hex

/-- A single discovered file: the loader returns exactly its normalization. -/
lemma load_single (fn : String) (t : Table) (l : List NormRow)
    (h : normalizeFile fn t = .ok l) : load_and_normalize [(fn, t)] = .ok l := by
  unfold load_and_normalize
  simp [List.mapM, List.mapM.loop, h, bind, Except.bind, pure, Except.pure]

/-- C4 (amended): every canonical record carries a numeric registrations
value — never null (NaN): cleaning maps every cell to a parsed float, with
0.0 on parse failure, and an absent column becomes a 0.0 column.  (The
non-negativity asserted by the original claim does not hold: the parser
keeps the sign of a negative input, see the counterexample.) -/
theorem C4_registrations_never_null (files : List (String × Table)) (out : List NormRow)
    (h : load_and_normalize files = .ok out) :
    ∀ r ∈ out, ∃ q, r.registrations = Cell.num q := by
  unfold load_and_normalize at h
  split at h
  · cases h
  · simp only [bind, Except.bind] at h
    split at h
    · cases h
    · next dfs hdfs =>
      simp only [pure, Except.pure, Except.ok.injEq] at h
      subst h
      intro r hr
      rcases List.mem_flatten.mp hr with ⟨l, hl, hrl⟩
      rcases mapM_ok_mem _ _ _ hdfs l hl with ⟨fl, _, hok⟩
      exact normalizeFile_registrations_num fl.1 fl.2 l hok r hrl

/-- C4 counterexample: the registrations string "-5" parses to the negative
float -5.0 — the invariant registrations >= 0 fails on the code (no sign
check exists; the spec asserts non-negative parsing). -/
theorem C4_negative_registrations :
    load_and_normalize [("maker 2021.csv", mkTbl4 [⟨"2019", "Acme", "-5", "Car"⟩])]
      = .ok [⟨Cell.date ⟨2021, 1, 1⟩, Cell.num 2021, Cell.str "4W",
              Cell.str "Acme", Cell.num (-5)⟩]
    ∧ (-5 : ℚ) < 0 := by
  constructor
  · apply load_single
    rw [normalizeFile_std]
    norm_num +decide [map_category, pyLower, strContains, hasSub, cleanReg, pyStr, pyStrip,
      removeCommas, stripSpaces, isSpaceChar, parseFloatQ, stripSign, splitOnExp, splitOnDot,
      parseMantissa, digitsToNat, digitVal, isDigitChar]
  · norm_num

/-- Witness for C4 at a concrete loaded file. -/
theorem C4_registrations_never_null_witness :
    ∃ q, (⟨Cell.date ⟨2021, 1, 1⟩, Cell.num 2021, Cell.str "4W",
        Cell.str "Acme", Cell.num (-5)⟩ : NormRow).registrations = Cell.num q := by
  refine C4_registrations_never_null
    [("maker 2021.csv", mkTbl4 [⟨"2019", "Acme", "-5", "Car"⟩])] _ ?_ _ (List.mem_singleton.mpr rfl)
  apply load_single
  rw [normalizeFile_std]
  norm_num +decide [map_category, pyLower, strContains, hasSub, cleanReg, pyStr, pyStrip,
    removeCommas, stripSpaces, isSpaceChar, parseFloatQ, stripSign, splitOnExp, splitOnDot,
    parseMantissa, digitsToNat, digitVal, isDigitChar]

/-- C3 (amended): the file-name year is not a fallback — when the pattern
matches, it is written over the year column for every row whatever that
column contained; and when the pattern is absent and the source has no year
column, the source fails to load with a KeyError rather than being loaded
with year unset. -/
theorem C3_filename_year_overrides (rows : List Raw4) (fn : String) (rows2 : List Raw4)
    (hfn : extractYear fn = none) :
    (normalizeFile "maker 2021.csv" (mkTbl4 rows)).map (List.map NormRow.year)
        = .ok (rows.map (fun _ => Cell.num 2021))
    ∧ normalizeFile fn (mkTblNoYear rows2) = .error "KeyError: year" := by
  constructor
  · rw [normalizeFile_std, except_map_ok, List.map_map]
    rfl
  · exact normalizeFile_noYear fn hfn rows2

/-- Witness for C3 at concrete inputs. -/
theorem C3_filename_year_overrides_witness :
    (normalizeFile "maker 2021.csv" (mkTbl4 [⟨"2019", "Acme", "5", "Car"⟩])).map
        (List.map NormRow.year) = .ok [Cell.num 2021]
    ∧ normalizeFile "maker data.csv" (mkTblNoYear [⟨"", "Acme", "5", "Car"⟩])
        = .error "KeyError: year" :=
  C3_filename_year_overrides [⟨"2019", "Acme", "5", "Car"⟩] "maker data.csv"
    [⟨"", "Acme", "5", "Car"⟩] (by decide)

/-- C3 counterexample: a source WITH a year field (2019) and a matching file
name gets year 2021 from the file name — the claim says the file-name year
is used only when the source has no year field, and that a patternless file
name with no year column still loads; instead such a load fails. -/
theorem C3_counterexample :
    (normalizeFile "maker 2021.csv" (mkTbl4 [⟨"2019", "Acme", "5", "Car"⟩])
        = .ok [⟨Cell.date ⟨2021, 1, 1⟩, Cell.num 2021, Cell.str "4W",
                Cell.str "Acme", Cell.num 5⟩])
    ∧ Cell.num 2021 ≠ Cell.num 2019
    ∧ normalizeFile "maker data.csv" (mkTblNoYear [⟨"", "Acme", "5", "Car"⟩])
        = .error "KeyError: year" := by
  refine ⟨?_, by norm_num, normalizeFile_noYear _ (by decide) _⟩
  rw [normalizeFile_std]
  norm_num +decide [map_category, pyLower, strContains, hasSub, cleanReg, pyStr, pyStrip,
    removeCommas, stripSpaces, isSpaceChar, parseFloatQ, stripSign, splitOnExp, splitOnDot,
    parseMantissa, digitsToNat, digitVal, isDigitChar]

/-- C9 (amended): manufacturer values pass through normalization verbatim —
original casing preserved, but whitespace NOT trimmed (only column names are
stripped; no operation ever touches the manufacturer values). -/
theorem C9_manufacturer_verbatim (rows : List Raw4) :
    (normalizeFile "maker 2021.csv" (mkTbl4 rows)).map (List.map NormRow.manufacturer)
      = .ok (rows.map (fun r => Cell.str r.maker)) := by
  rw [normalizeFile_std, except_map_ok, List.map_map]
  rfl

/-- C9 counterexample: the padded manufacturer " Acme " is emitted with its
whitespace intact, while the claim requires the trimmed "Acme". -/
theorem C9_counterexample :
    (normalizeFile "maker 2021.csv" (mkTbl4 [⟨"2019", " Acme ", "5", "Car"⟩])).map
        (List.map NormRow.manufacturer) = .ok [Cell.str " Acme "]
    ∧ pyStrip " Acme " = "Acme"
    ∧ (" Acme " : String) ≠ "Acme" := by
  refine ⟨?_, by decide, by decide⟩
  rw [normalizeFile_std, except_map_ok, List.map_map]
  rfl

/-- Array accesses for the argsort model (functional lists standing for the
C arrays; indices are always in range at every call site). -/
def lget (v : List ℚ) (i : Nat) : ℚ := v.getD i 0

def nget (t : List Nat) (i : Nat) : Nat := t.getD i 0

def nset (t : List Nat) (i : Nat) (x : Nat) : List Nat := t.set i x

def nswap (t : List Nat) (i j : Nat) : List Nat := (t.set i (nget t j)).set j (nget t i)

/-- The numpy LT for doubles; the totals carry no NaN, so this is plain
less-than. -/
def qlt (a b : ℚ) : Bool := decide (a < b)

/-- The shifting loop of the indirect insertion sort of npysort
(while pj > pl and LT(vp, v[tosort[pj-1]]): tosort[pj] = tosort[pj-1]).
Fuel bounds the walk; pj itself suffices. -/
def insShift (v : List ℚ) (vp : ℚ) (pl : Nat) : Nat → List Nat → Nat → (List Nat × Nat)
  | 0, t, pj => (t, pj)
  | fuel + 1, t, pj =>
      if pl < pj ∧ qlt vp (lget v (nget t (pj - 1))) = true then
        insShift v vp pl fuel (nset t pj (nget t (pj - 1))) (pj - 1)
      else (t, pj)

/-- Indirect insertion sort of the segment [pl, pr], as npysort runs it on
small partitions. -/
def insSortSeg (v : List ℚ) (t0 : List Nat) (pl pr : Nat) : List Nat :=
  (List.range' (pl + 1) (pr + 1 - (pl + 1))).foldl (fun t pi =>
    let vi := nget t pi
    let vp := lget v vi
    let r := insShift v vp pl pi t pi
    nset r.1 r.2 vi) t0

/-- heap cell access: the C code works on a 1-based view a = tosort + pl - 1. -/
def hget (t : List Nat) (pl i : Nat) : Nat := nget t (pl + i - 1)

def hset (t : List Nat) (pl i : Nat) (x : Nat) : List Nat := nset t (pl + i - 1) x

/-- The sift-down loop of npysort aheapsort. -/
def siftDown (v : List ℚ) (pl : Nat) : Nat → List Nat → Nat → Nat → Nat → Nat → List Nat
  | 0, t, tmp, _, i, _ => hset t pl i tmp
  | fuel + 1, t, tmp, n, i, j =>
      if j ≤ n then
        let j2 := if j < n ∧ qlt (lget v (hget t pl j)) (lget v (hget t pl (j + 1))) = true
          then j + 1 else j
        if qlt (lget v tmp) (lget v (hget t pl j2)) then
          siftDown v pl fuel (hset t pl i (hget t pl j2)) tmp n j2 (2 * j2)
        else hset t pl i tmp
      else hset t pl i tmp

/-- Heap construction phase (l = n/2 down to 1). -/
def heapBuild (v : List ℚ) (pl n : Nat) : Nat → List Nat → List Nat
  | 0, t => t
  | l + 1, t =>
      let ll := l + 1
      let t2 := siftDown v pl (n + 1) t (hget t pl ll) n ll (2 * ll)
      heapBuild v pl n l t2

/-- Extraction phase (shrink the heap from n down to 2). -/
def heapExtract (v : List ℚ) (pl : Nat) : Nat → List Nat → List Nat
  | 0, t => t
  | 1, t => t
  | m + 1, t =>
      let tmp := hget t pl (m + 1)
      let t2 := hset t pl (m + 1) (hget t pl 1)
      let t3 := siftDown v pl (m + 2) t2 tmp m 1 2
      heapExtract v pl m t3

/-- npysort aheapsort on the segment of length n starting at pl (the
introsort depth-limit fallback). -/
def aheapsort (v : List ℚ) (t : List Nat) (pl n : Nat) : List Nat :=
  heapExtract v pl n (heapBuild v pl n (n / 2) t)

/-- do ++pi while LT(v[tosort[pi]], vp). -/
def scanUp (v : List ℚ) (vp : ℚ) : Nat → List Nat → Nat → Nat
  | 0, _, pi => pi
  | fuel + 1, t, pi =>
      let pi2 := pi + 1
      if qlt (lget v (nget t pi2)) vp then scanUp v vp fuel t pi2 else pi2

/-- do --pj while LT(vp, v[tosort[pj]]). -/
def scanDown (v : List ℚ) (vp : ℚ) : Nat → List Nat → Nat → Nat
  | 0, _, pj => pj
  | fuel + 1, t, pj =>
      let pj2 := pj - 1
      if qlt vp (lget v (nget t pj2)) then scanDown v vp fuel t pj2 else pj2

/-- The partition exchange loop of npysort quicksort. -/
def partLoop (v : List ℚ) (vp : ℚ) : Nat → List Nat → Nat → Nat → (List Nat × Nat)
  | 0, t, pi, _ => (t, pi)
  | fuel + 1, t, pi, pj =>
      let pi2 := scanUp v vp (fuel + 1) t pi
      let pj2 := scanDown v vp (fuel + 1) t pj
      if pj2 ≤ pi2 then (t, pi2)
      else partLoop v vp fuel (nswap t pi2 pj2) pi2 pj2

/-- npy_get_msb: position of the highest set bit. -/
def msbFuel : Nat → Nat → Nat
  | 0, _ => 0
  | fuel + 1, n => if 2 ≤ n then msbFuel fuel (n / 2) + 1 else 0

def npyGetMsb (n : Nat) : Nat := msbFuel n n

/-- The driver of npysort aquicksort: median-of-3 partitioning with an
explicit stack, insertion sort below 16 elements (SMALL_QUICKSORT = 15),
and a heapsort fallback when the shared depth budget runs out. -/
def qsLoop (v : List ℚ) : Nat → List Nat → List (Nat × Nat) → Nat → Nat → Int → List Nat
  | 0, t, _, _, _, _ => t
  | fuel + 1, t, stack, pl, pr, depth =>
      if 15 < pr - pl then
        if depth < 0 then
          let t2 := aheapsort v t pl (pr - pl + 1)
          match stack with
          | [] => t2
          | (pl2, pr2) :: rest => qsLoop v fuel t2 rest pl2 pr2 depth
        else
          let pm := pl + (pr - pl) / 2
          let t1 := if qlt (lget v (nget t pm)) (lget v (nget t pl)) then nswap t pm pl else t
          let t2 := if qlt (lget v (nget t1 pr)) (lget v (nget t1 pm)) then nswap t1 pr pm else t1
          let t3 := if qlt (lget v (nget t2 pm)) (lget v (nget t2 pl)) then nswap t2 pm pl else t2
          let vp := lget v (nget t3 pm)
          let t4 := nswap t3 pm (pr - 1)
          let r := partLoop v vp (fuel + 1) t4 pl (pr - 1)
          let pi := r.2
          let t6 := nswap r.1 pi (pr - 1)
          if pi - pl < pr - pi then
            qsLoop v fuel t6 ((pi + 1, pr) :: stack) pl (pi - 1) (depth - 1)
          else
            qsLoop v fuel t6 ((pl, pi - 1) :: stack) (pi + 1) pr (depth - 1)
      else
        let t2 := insSortSeg v t pl pr
        match stack with
        | [] => t2
        | (pl2, pr2) :: rest => qsLoop v fuel t2 rest pl2 pr2 depth

/-- numpy ndarray.argsort(kind="quicksort") — indirect introsort over the
values; deterministic and, notably, NOT stable once a partition step runs
(at 16 or fewer elements it degenerates to the stable insertion sort). -/
def npArgsort (v : List ℚ) : List Nat :=
  let n := v.length
  if n = 0 then []
  else qsLoop v (n * n + n + 64) (List.range n) [] 0 (n - 1) (2 * (npyGetMsb n : Int))

/-- pandas nargsort with ascending=False and no NaN present, followed by
df.take: reverse the values, argsort them, map the positions back and
reverse the indexer (pandas/core/sorting.py).  With a stable kind this
would realize a stable descending sort; with the default quicksort it need
not. -/
def pandasSortDesc (g : List (String × ℚ)) : List (String × ℚ) :=
  let n := g.length
  let p := npArgsort ((g.map Prod.snd).reverse)
  let indexer := (p.map (fun i => n - 1 - i)).reverse
  indexer.map (fun i => g.getD i ("", 0))


/-- Non-strict string order (groupby sorts keys ascending). -/
def strLeb (a b : String) : Bool := strLtb a b || decide (a = b)

def strRelLe (a b : String) : Prop := strLeb a b = true

instance : DecidableRel strRelLe := fun a b => inferInstanceAs (Decidable (strLeb a b = true))

instance : IsTotal String strRelLe := by
  constructor
  intro a b
  unfold strRelLe strLeb
  simp only [Bool.or_eq_true, decide_eq_true_eq]
  rcases strLtb_trichotomy a b with h | h | h
  · exact Or.inl (Or.inl h)
  · exact Or.inl (Or.inr h)
  · exact Or.inr (Or.inl h)

instance : IsTrans String strRelLe := by
  constructor
  intro a b c hab hbc
  unfold strRelLe strLeb at *
  simp only [Bool.or_eq_true, decide_eq_true_eq] at *
  rcases hab with h1 | h1
  · rcases hbc with h2 | h2
    · exact Or.inl (strLtb_trans h1 h2)
    · exact Or.inl (h2 ▸ h1)
  · rcases hbc with h2 | h2
    · exact Or.inl (h1 ▸ h2)
    · exact Or.inr (h1.trans h2)

instance : IsAntisymm String strRelLe := by
  constructor
  intro a b hab hba
  unfold strRelLe strLeb at *
  simp only [Bool.or_eq_true, decide_eq_true_eq] at *
  rcases hab with h1 | h1
  · rcases hba with h2 | h2
    · exact absurd (strLtb_trans h1 h2) (by simp [strLtb_irrefl])
    · exact h2.symm
  · exact h1

/-- groupby("manufacturer", as_index=False).agg(total=("total", "sum")):
one row per distinct manufacturer, keys in ascending order, totals summed
across any remaining dimension. -/
def groupManufacturers (l : List AggRow) : List (String × ℚ) :=
  let ms := List.insertionSort strRelLe ((l.map AggRow.manufacturer).dedup)
  ms.map (fun m => (m, ((l.filter (fun b => b.manufacturer = m)).map AggRow.total).sum))

/-- src/processing.py top_n_manufacturers (n defaults to 10 at the call
sites).  Filter to the exact period, group by manufacturer, sort descending
by total with the pandas default (numpy quicksort) and keep the first n. -/
def top_n_manufacturers (df_agg : List AggRow) (period : Date) (n : Nat) : List (String × ℚ) :=
  if df_agg.isEmpty then []
  else
    let mask := df_agg.filter (fun a => a.period = period)
    if mask.isEmpty then []
    else (pandasSortDesc (groupManufacturers mask)).take n

/-- C6 (amended): top_n_manufacturers filters to the exact period, groups by
manufacturer with keys ascending and distinct, sums totals losing no mass,
then takes the first n of the numpy-quicksort descending order.  The sort is
the pandas default kind and is NOT stable (see the counterexample for a tie
order that departs from the original order). -/
theorem C6_top_n_shape (df : List AggRow) (p : Date) (n : Nat) :
    top_n_manufacturers df p n
        = (pandasSortDesc (groupManufacturers (df.filter (fun a => a.period = p)))).take n
    ∧ ((groupManufacturers (df.filter (fun a => a.period = p))).map Prod.snd).sum
        = ((df.filter (fun a => a.period = p)).map AggRow.total).sum
    ∧ ((groupManufacturers (df.filter (fun a => a.period = p))).map Prod.fst).Nodup
    ∧ List.Sorted strRelLe ((groupManufacturers (df.filter (fun a => a.period = p))).map Prod.fst) := by
  refine ⟨?_, ?_, ?_, ?_⟩
  · unfold top_n_manufacturers
    by_cases hdf : df.isEmpty
    · rw [if_pos hdf, List.isEmpty_iff.mp hdf]
      rw [show pandasSortDesc (groupManufacturers (List.filter (fun a => decide (a.period = p)) [])) = [] from rfl,
        List.take_nil]
    · rw [if_neg hdf]
      by_cases hm : (df.filter (fun a => a.period = p)).isEmpty
      · rw [if_pos hm, List.isEmpty_iff.mp hm]
        rw [show pandasSortDesc (groupManufacturers []) = [] from rfl, List.take_nil]
      · rw [if_neg hm]
  · unfold groupManufacturers
    rw [List.map_map]
    have h1 : (Prod.snd ∘ fun m =>
        (m, (((df.filter (fun a => a.period = p)).filter (fun b => b.manufacturer = m)).map AggRow.total).sum))
        = fun m => (((df.filter (fun a => a.period = p)).filter (fun b => b.manufacturer = m)).map AggRow.total).sum := rfl
    rw [h1]
    have hperm : (List.insertionSort strRelLe
        (((df.filter (fun a => a.period = p)).map AggRow.manufacturer).dedup)).Perm
        (((df.filter (fun a => a.period = p)).map AggRow.manufacturer).dedup) :=
      List.perm_insertionSort _ _
    rw [(hperm.map _).sum_eq]
    exact sum_groups AggRow.manufacturer AggRow.total _ _ (List.nodup_dedup _)
      (fun x hx => List.mem_dedup.mpr (List.mem_map_of_mem AggRow.manufacturer hx))
  · unfold groupManufacturers
    rw [List.map_map]
    have h1 : (Prod.fst ∘ fun m =>
        (m, (((df.filter (fun a => a.period = p)).filter (fun b => b.manufacturer = m)).map AggRow.total).sum))
        = id := rfl
    rw [h1, List.map_id]
    exact ((List.perm_insertionSort strRelLe _).nodup_iff).mpr (List.nodup_dedup _)
  · unfold groupManufacturers
    rw [List.map_map]
    have h1 : (Prod.fst ∘ fun m =>
        (m, (((df.filter (fun a => a.period = p)).filter (fun b => b.manufacturer = m)).map AggRow.total).sum))
        = id := rfl
    rw [h1, List.map_id]
    exact List.sorted_insertionSort strRelLe _

section RatComputable

/- The Batteries rational arithmetic is marked irreducible for elaboration
performance; concrete evaluations below need it unfolded. -/
attribute [local semireducible] Rat.add Rat.mul Rat.sub Rat.inv

set_option maxRecDepth 40000 in
/-- C6 counterexample: seventeen manufacturers, all with total 5 in period
2021-01-01 (seventeen forces a quicksort partition pass; at sixteen or fewer
numpy falls back to a stable insertion sort).  The returned top 10 is NOT
the first ten manufacturers in their original (ascending) order: the
unstable partition scrambles the ties, so the claimed stable tie-breaking
fails. -/
theorem C6_ties_not_stable :
    top_n_manufacturers
        (["M01", "M02", "M03", "M04", "M05", "M06", "M07", "M08", "M09", "M10", "M11",
          "M12", "M13", "M14", "M15", "M16", "M17"].map
          (fun m => (⟨⟨2021, 1, 1⟩, "2W", m, 5⟩ : AggRow)))
        ⟨2021, 1, 1⟩ 10
      = [("M01", 5), ("M10", 5), ("M16", 5), ("M15", 5), ("M14", 5), ("M13", 5),
         ("M12", 5), ("M11", 5), ("M09", 5), ("M02", 5)]
    ∧ [("M01", 5), ("M10", 5), ("M16", 5), ("M15", 5), ("M14", 5), ("M13", 5),
         ("M12", 5), ("M11", 5), ("M09", 5), ("M02", 5)]
      ≠ ([("M01", (5 : ℚ)), ("M02", 5), ("M03", 5), ("M04", 5), ("M05", 5), ("M06", 5),
         ("M07", 5), ("M08", 5), ("M09", 5), ("M10", 5)]) := by
  constructor
  · decide
  · decide

end RatComputable
